import Mathlib

/-!
Verification of the z2m broker (broker.go, publisher.go, api package).

The development shallowly embeds the parts of the code the properties talk
about: JSON payloads become an inductive `Json` type, Go maps become
functions into `Option`, Go pointers (`*Node`, the per-property watcher
maps, the per-call ack channels) become indices into explicit heaps carried
in the `Broker` state, and fallible Go code returns `Except`/`Option`.
-/

namespace Z2M

/-- JSON values as produced by Go's encoding/json. Numbers are modelled as
integers (all numeric payloads handled by this code decode into Go `int`). -/
inductive Json where
  | null
  | bool (b : Bool)
  | num (n : Int)
  | str (s : String)
  | arr (xs : List Json)
  | obj (fields : List (String × Json))

/-- Field lookup in a JSON object's field list. Go's encoding/json lets a
later duplicate key overwrite an earlier one, hence the left fold. -/
def getFieldList (fs : List (String × Json)) (k : String) : Option Json :=
  fs.foldl (fun acc kv => if kv.1 = k then some kv.2 else acc) none

/-- Go `json.Unmarshal` into an `int` variable that starts at its zero value:
a JSON number decodes to itself, JSON `null` is a no-op (leaving `0`), and
any other shape is an error. -/
def unmarshalInt : Json → Except String Int
  | .num n => .ok n
  | .null => .ok 0
  | _ => .error "cannot unmarshal into Go value of type int"

/-- Go `json.Unmarshal` into a `bool` variable starting at `false`. -/
def unmarshalBool : Json → Except String Bool
  | .bool b => .ok b
  | .null => .ok false
  | _ => .error "cannot unmarshal into Go value of type bool"

/-- Go `json.Unmarshal` into a `string` variable starting at `""`. -/
def unmarshalString : Json → Except String String
  | .str s => .ok s
  | .null => .ok ""
  | _ => .error "cannot unmarshal into Go value of type string"

/-- Go `json.Unmarshal` of an object field into an `int` struct field:
an absent field or a JSON `null` leaves the zero value. -/
def unmarshalIntField (fs : List (String × Json)) (k : String) : Except String Int :=
  match getFieldList fs k with
  | none => .ok 0
  | some j => unmarshalInt j

/-- Go `json.Unmarshal` of an object field into a `bool` struct field. -/
def unmarshalBoolField (fs : List (String × Json)) (k : String) : Except String Bool :=
  match getFieldList fs k with
  | none => .ok false
  | some j => unmarshalBool j

/-- Go `json.Unmarshal` of an object field into a `string` struct field. -/
def unmarshalStringField (fs : List (String × Json)) (k : String) : Except String String :=
  match getFieldList fs k with
  | none => .ok ""
  | some j => unmarshalString j

/-- Go `json.Unmarshal` of an object field into a `[]json.RawMessage` struct
field: absent or `null` leaves the nil slice. -/
def unmarshalArrField (fs : List (String × Json)) (k : String) :
    Except String (List Json) :=
  match getFieldList fs k with
  | none => .ok []
  | some .null => .ok []
  | some (.arr xs) => .ok xs
  | some _ => .error "cannot unmarshal into Go value of type []json.RawMessage"

/-- Go `json.Unmarshal` into `struct { Unit string }` (the shape used by the
duration case of `Value.Value`): a JSON object (reading its `unit` field) or
`null` succeed, everything else fails. -/
def unmarshalUnitStruct : Json → Except String String
  | .obj fs => unmarshalStringField fs "unit"
  | .null => .ok ""
  | _ => .error "cannot unmarshal into Go struct"

/-! Constants from the api package (api.go). -/

def TypeNumber : String := "number"
def TypeBool : String := "boolean"
def TypeString : String := "string"
def TypeListNumber : String := "number[]"
def TypeListBool : String := "boolean[]"
def TypeListString : String := "string[]"
def TypeDuration : String := "duration"
def TypeColor : String := "color"
def TypeAny : String := "any"

def DurationSeconds : String := "seconds"
def DurationMinutes : String := "minutes"

/-- Go `time.Second` in nanoseconds. -/
def timeSecond : Int := 1000000000

/-- Go `time.Minute` in nanoseconds. -/
def timeMinute : Int := 60 * timeSecond

/-- api.StringInt: a field that may arrive as a JSON string or a JSON
number; stores both candidates, zero-valued when absent. -/
structure StringInt where
  s : String
  i : Int
deriving DecidableEq

/-- api.StringInt.String: the string form if non-empty, otherwise
`strconv.Itoa` of the int form. -/
def StringInt.string (si : StringInt) : String :=
  if si.s ≠ "" then si.s else toString si.i

/-- api.Value, restricted to the fields the verified code reads. `RawValue`
is `json.RawMessage`; `none` models the empty/absent message (`len == 0`). -/
structure Value where
  id : String
  nodeID : Int
  commandClass : Int
  endpoint : Int
  property : StringInt
  type : String
  rawValue : Option Json

/-- The Go values `Value.Value()` can produce: `int`, `bool`, `string`,
`time.Duration` (nanoseconds), or the raw `json.RawMessage` passed through. -/
inductive GoValue where
  | int (n : Int)
  | bool (b : Bool)
  | str (s : String)
  | duration (ns : Int)
  | raw (r : Option Json)

/-- Errors produced by `Value.Value()`: a payload that does not match the
declared type's expected shape, or an unrecognized declared type. -/
inductive ValueError where
  | parseFailure (type : String)
  | unknownType (type : String)

/-- api.Value.Value(): type-directed decoding of `RawValue` following the
switch on `v.Type`. -/
def Value.value (v : Value) : Except ValueError GoValue :=
  if v.type = TypeNumber then
    match v.rawValue with
    | none => .ok (.int 0)
    | some j =>
      match unmarshalInt j with
      | .ok n => .ok (.int n)
      | .error _ => .error (.parseFailure v.type)
  else if v.type = TypeBool then
    match v.rawValue with
    | none => .ok (.bool false)
    | some j =>
      match unmarshalBool j with
      | .ok b => .ok (.bool b)
      | .error _ => .error (.parseFailure v.type)
  else if v.type = TypeString ∨ v.type = TypeColor then
    match v.rawValue with
    | none => .error (.parseFailure v.type)
    | some j =>
      match unmarshalString j with
      | .ok s => .ok (.str s)
      | .error _ => .error (.parseFailure v.type)
  else if v.type = TypeDuration then
    match v.rawValue with
    | none => .error (.parseFailure v.type)
    | some j =>
      match unmarshalUnitStruct j with
      | .error _ => .error (.parseFailure v.type)
      | .ok u =>
        if u = DurationSeconds then .ok (.duration timeSecond)
        else if u = DurationMinutes then .ok (.duration timeMinute)
        else .ok (.duration 0)
  else if v.type = TypeAny then
    .ok (.raw v.rawValue)
  else
    .error (.unknownType v.type)

/-- api.ValueID: the composite key carried in write requests and write
acknowledgements. -/
structure ValueID where
  nodeID : Int
  commandClass : Int
  endpoint : Int
  property : String
deriving DecidableEq

/-- api.Value.WriteValue: the `args` pair published for a write request. -/
structure WriteValueArgs where
  vid : ValueID
  value : Json

/-- api.Value.WriteValue builds the args array `[ValueID, value]`. -/
def Value.writeValue (v : Value) (value : Json) : WriteValueArgs :=
  { vid := { nodeID := v.nodeID, commandClass := v.commandClass,
             endpoint := v.endpoint, property := v.property.string },
    value := value }

/-- api.WriteValueResp after a successful UnmarshalJSON. -/
structure WriteValueResp where
  success : Bool
  message : String
  valueID : ValueID
  value : Json

/-- Go `json.Unmarshal` of a JSON value into api.ValueID. -/
def unmarshalValueID : Json → Except String ValueID
  | .null => .ok { nodeID := 0, commandClass := 0, endpoint := 0, property := "" }
  | .obj fs => do
    let nodeId ← unmarshalIntField fs "nodeId"
    let cc ← unmarshalIntField fs "commandClass"
    let ep ← unmarshalIntField fs "endpoint"
    let prop ← unmarshalStringField fs "property"
    .ok { nodeID := nodeId, commandClass := cc, endpoint := ep, property := prop }
  | _ => .error "cannot unmarshal into Go value of type api.ValueID"

/-- api.WriteValueResp.UnmarshalJSON: decodes `success`, `message` and an
`args` array that must have exactly two elements; element 0 becomes the
ValueID and element 1 the raw value. -/
def WriteValueResp.unmarshalJSON : Json → Except String WriteValueResp
  | .obj fs => do
    let success ← unmarshalBoolField fs "success"
    let message ← unmarshalStringField fs "message"
    let args ← unmarshalArrField fs "args"
    match args with
    | [a0, a1] => do
      let vid ← unmarshalValueID a0
      .ok { success := success, message := message, valueID := vid, value := a1 }
    | _ => .error ("unexpected args array of length " ++ toString args.length)
  | .null => .error "unexpected args array of length 0"
  | _ => .error "cannot unmarshal into Go value of type api.WriteValueResp"

/-! ## Broker state

Go pointers and channels are modelled as indices into explicit heaps:
`nodeHeap` holds the `*Node` targets shared by the two directory indices,
`cellHeap` holds the per-property watcher sets (the inner
`map[chan<- interface{}]struct{}` objects captured by watch-cancel
closures), and `chanBufs` holds the contents delivered into each
`SetAttr` wait channel, each entry tagged with the ghost identity of the
publish that elicited the acknowledgement. -/

/-- A watcher sink: the identity of a `chan<- interface{}` passed to
`WatchValue`. -/
abbrev Sink := Nat

/-- z2m.Node: the directory entry built during `handleGetNodesResp`,
restricted to the fields the verified code reads. -/
structure Node where
  id : Int
  name : String
  valuesByProperty : String → Option Value
  valuesByID : String → Option Value
  valueWatchers : String → Option Nat

instance : Inhabited Node :=
  ⟨{ id := 0, name := "", valuesByProperty := fun _ => none,
     valuesByID := fun _ => none, valueWatchers := fun _ => none }⟩

/-- z2m.Broker. `setAttr` is the pending-write table (composite key to wait
channel), `nodesByName`/`nodesByID` are the two directory indices holding
node pointers, and the remaining fields are the heaps plus allocation
counters for fresh pointers/channels. -/
structure Broker where
  setAttr : ValueID → Option Nat
  chanBufs : Nat → List (Nat × Option String)
  nextChan : Nat
  nodesByName : String → Option Nat
  nodesByID : Int → Option Nat
  nodeHeap : Nat → Node
  nextNode : Nat
  cellHeap : Nat → List Sink
  nextCell : Nat

/-- z2m.NewBroker: empty pending-write table and empty directory. -/
def emptyBroker : Broker :=
  { setAttr := fun _ => none
    chanBufs := fun _ => []
    nextChan := 0
    nodesByName := fun _ => none
    nodesByID := fun _ => none
    nodeHeap := fun _ => default
    nextNode := 0
    cellHeap := fun _ => []
    nextCell := 0 }

/-! ## Bootstrap (Broker.handleGetNodesResp) -/

/-- api.Node, restricted to the fields `handleGetNodesResp` reads. `values`
models the Go `map[string]Value`; Go's unspecified map iteration order is
determinized to list order. -/
structure ApiNode where
  id : Int
  name : String
  failed : Bool
  values : List (String × Value)

/-- api.GetNodesResp after a successful unmarshal. -/
structure GetNodesResp where
  success : Bool
  message : String
  result : List ApiNode

/-- The `valuesByProperty` map built by the per-node loop in
`handleGetNodesResp`: each value is keyed by `v.Property.String()`, later
entries overwriting earlier ones. -/
def buildByProperty (vs : List (String × Value)) : String → Option Value :=
  vs.foldl (fun acc kv s => if s = kv.2.property.string then some kv.2 else acc s)
    (fun _ => none)

/-- The `valuesByID` map built by the per-node loop in
`handleGetNodesResp`: each value is keyed by `v.ID`. -/
def buildByID (vs : List (String × Value)) : String → Option Value :=
  vs.foldl (fun acc kv s => if s = kv.2.id then some kv.2 else acc s)
    (fun _ => none)

/-- The `z2m.Node` object built for one response entry: its value maps
plus an empty watcher map. -/
def ApiNode.toNode (n : ApiNode) : Node :=
  { id := n.id, name := n.name,
    valuesByProperty := buildByProperty n.values,
    valuesByID := buildByID n.values,
    valueWatchers := fun _ => none }

/-- Installing one non-failed response entry: allocate the `*Node`, index
it by name when the name is non-empty, and index it by id. -/
def Broker.installNode (b : Broker) (n : ApiNode) : Broker :=
  let p := b.nextNode
  { b with
    nodeHeap := fun q => if q = p then n.toNode else b.nodeHeap q
    nextNode := p + 1
    nodesByName := fun s => if n.name ≠ "" ∧ s = n.name then some p else b.nodesByName s
    nodesByID := fun d => if d = n.id then some p else b.nodesByID d }

/-- The `for _, n := range resp.Result` loop of `handleGetNodesResp`:
failed entries are skipped, a name collision with an already-installed
entry returns the duplicate error (leaving the maps as mutated so far,
mirroring the early `return` inside the locked closure), and every other
entry is installed. -/
def Broker.installNodes (b : Broker) : List ApiNode → Except (Broker × String) Broker
  | [] => .ok b
  | n :: rest =>
    if n.failed then b.installNodes rest
    else if (b.nodesByName n.name).isSome then
      .error (b, "duplicate node name " ++ n.name)
    else (b.installNode n).installNodes rest

/-- The two clearing loops at the top of the locked section of
`handleGetNodesResp`: every key is deleted from both indices. -/
def Broker.clearNodes (b : Broker) : Broker :=
  { b with nodesByName := fun _ => none, nodesByID := fun _ => none }

/-- z2m.Broker.handleGetNodesResp, from the decoded response onward: an
unsuccessful response is rejected before the directory is touched;
otherwise both indices are cleared and the result entries are installed in
order. The returned `Option String` is the handler error, which is also
forwarded (non-blocking) to the caller waiting in `GetNodes`. -/
def Broker.handleGetNodesResp (b : Broker) (resp : GetNodesResp) :
    Broker × Option String :=
  if !resp.success then (b, some "unsuccessful GetNodes response")
  else
    match b.clearNodes.installNodes resp.result with
    | .ok b2 => (b2, none)
    | .error (b2, e) => (b2, some e)

/-! ## Pending writes (Broker.SetAttr and Broker.handleWriteValueResp) -/

/-- Errors `SetAttr` can return before publishing. -/
inductive BrokerError where
  | nodeNotFound (name : String)
  | attrNotFound (name : String) (label : String)
deriving DecidableEq

/-- Line 112 of broker.go: `b.setAttr[vid] = wait` — registration of a wait
channel unconditionally overwrites any previous entry at the same key. -/
def Broker.registerWait (b : Broker) (k : ValueID) (c : Nat) : Broker :=
  { b with setAttr := fun k2 => if k2 = k then some c else b.setAttr k2 }

/-- Line 117 of broker.go (the deferred cleanup in `SetAttr`):
`delete(b.setAttr, vid)` — the entry at the key is removed
unconditionally, with no check that it still holds this call's channel. -/
def Broker.cleanupWait (b : Broker) (k : ValueID) : Broker :=
  { b with setAttr := fun k2 => if k2 = k then none else b.setAttr k2 }

/-- The outcome of `SetAttr` up to and including the publish: either an
error returned before anything is published (the Publisher is not invoked
on this path), or the message was published after registering a fresh wait
channel under the composite key. -/
inductive SetAttrOutcome where
  | err (e : BrokerError)
  | published (vid : ValueID) (chan : Nat) (msg : WriteValueArgs) (b2 : Broker)

/-- z2m.Broker.SetAttr, lines 85–123: resolve the node by name, resolve the
value by property, build the write args via `Value.WriteValue`, register a
fresh wait channel under the composite key, and publish. (The
`msg.Args[0].(api.ValueID)` type assertion always succeeds because
`WriteValue` places a `ValueID` there by construction, and `json.Marshal`
of the args cannot fail; neither fallible branch is reachable.) -/
def Broker.setAttrStart (b : Broker) (nodeName property : String) (value : Json) :
    SetAttrOutcome :=
  match b.nodesByName nodeName with
  | none => .err (.nodeNotFound nodeName)
  | some p =>
    match (b.nodeHeap p).valuesByProperty property with
    | none => .err (.attrNotFound nodeName property)
    | some v =>
      let msg := v.writeValue value
      let c := b.nextChan
      .published msg.vid c msg
        { (b.registerWait msg.vid c) with nextChan := b.nextChan + 1 }

/-- Errors `handleWriteValueResp` can return. -/
inductive WVError where
  | malformed (msg : String)
  | remoteFailure (msg : String)
deriving DecidableEq

/-- z2m.Broker.handleWriteValueResp: decode the acknowledgement, look up
the wait channel registered under its composite key (dropping the
acknowledgement when there is none), and deliver `nil` on success or the
remote-failure error (also returned) on failure. `origin` is a ghost tag
recording which call's publish elicited this acknowledgement; the handler
itself never inspects it — matching is by composite key alone. -/
def Broker.handleWriteValueResp (b : Broker) (origin : Nat) (j : Json) :
    Broker × Option WVError :=
  match WriteValueResp.unmarshalJSON j with
  | .error e => (b, some (.malformed e))
  | .ok resp =>
    match b.setAttr resp.valueID with
    | none => (b, none)
    | some c =>
      if resp.success then
        ({ b with chanBufs := fun c2 =>
             if c2 = c then b.chanBufs c ++ [(origin, none)] else b.chanBufs c2 },
         none)
      else
        ({ b with chanBufs := fun c2 =>
             if c2 = c then b.chanBufs c ++ [(origin, some resp.message)]
             else b.chanBufs c2 },
         some (.remoteFailure resp.message))

/-! ## Watches (Broker.WatchValue and Broker.handleNodeValueUpdated) -/

/-- Errors `WatchValue` can return. -/
inductive WatchError where
  | nodeNotFound (name : String)
  | propNotFound (id : Int) (property : String)
deriving DecidableEq

/-- Set insertion into a watcher cell (`w[v] = struct{}{}`). -/
def insertSink (v : Sink) (l : List Sink) : List Sink :=
  if v ∈ l then l else l ++ [v]

/-- z2m.Broker.WatchValue: resolve the node by name, require the property
to exist, lazily allocate the per-property watcher cell, insert the sink,
and return the cancellation token — the pair (cell, sink) captured by the
Go cancel closure. -/
def Broker.watchValue (b : Broker) (nodeName property : String) (v : Sink) :
    Except WatchError (Broker × (Nat × Sink)) :=
  match b.nodesByName nodeName with
  | none => .error (.nodeNotFound nodeName)
  | some p =>
    if ((b.nodeHeap p).valuesByProperty property).isNone then
      .error (.propNotFound (b.nodeHeap p).id property)
    else
      match (b.nodeHeap p).valueWatchers property with
      | some cell =>
        .ok ({ b with cellHeap := fun c =>
                 if c = cell then insertSink v (b.cellHeap cell) else b.cellHeap c },
             (cell, v))
      | none =>
        .ok ({ b with
                 nodeHeap := fun q =>
                   if q = p then
                     { b.nodeHeap p with valueWatchers := fun s =>
                         if s = property then some b.nextCell
                         else (b.nodeHeap p).valueWatchers s }
                   else b.nodeHeap q
                 cellHeap := fun c =>
                   if c = b.nextCell then insertSink v [] else b.cellHeap c
                 nextCell := b.nextCell + 1 },
             (b.nextCell, v))

/-- The cancel closure returned by `WatchValue`: `delete(w, v)` on the
captured watcher cell. It is total — cancelling twice, or cancelling a
token whose cell the live directory no longer references, simply removes
nothing. -/
def Broker.applyCancel (b : Broker) (tok : Nat × Sink) : Broker :=
  { b with cellHeap := fun c =>
      if c = tok.1 then (b.cellHeap tok.1).filter (fun w => w != tok.2)
      else b.cellHeap c }

/-- Errors `handleNodeValueUpdated` can return (the JSON-shape errors of
the envelope itself are upstream of the modelled stage). -/
inductive NVUError where
  | updateNotFound (id : String)
  | decodeFailed (e : ValueError)

/-- api.NodeValueUpdate delta descriptor (the second `data` element). -/
structure UpdateDescriptor where
  commandClass : Int
  endpoint : Int
  property : StringInt
  propertyKey : String

/-- The composite identifier derived by NodeValueUpdate.UnmarshalJSON:
`commandClass-endpoint-property`, with a `-propertyKey` suffix when the
property key is non-empty. -/
def derivedId (upd : UpdateDescriptor) : String :=
  let id := toString upd.commandClass ++ "-" ++ toString upd.endpoint ++ "-" ++
    upd.property.string
  if upd.propertyKey ≠ "" then id ++ "-" ++ upd.propertyKey else id

/-- Lookup in the snapshot node's `Values` map (`node.Values[id]`). -/
def lookupValue (values : List (String × Value)) (k : String) : Option Value :=
  values.foldl (fun acc kv => if kv.1 = k then some kv.2 else acc) none

/-- z2m.Broker.handleNodeValueUpdated, from the decoded envelope onward:
find the updated value in the snapshot via the derived identifier (an
error if absent), decode it (an error on failure), then route by the
value's node id and property through the live directory — an unknown node
id or an absent watcher set returns success with no deliveries. The
returned list holds the sinks the handler attempts a non-blocking send of
the decoded value to. -/
def Broker.handleNodeValueUpdated (b : Broker) (snapshot : List (String × Value))
    (upd : UpdateDescriptor) : Option NVUError × List Sink :=
  match lookupValue snapshot (derivedId upd) with
  | none => (some (.updateNotFound (derivedId upd)), [])
  | some value =>
    match value.value with
    | .error e => (some (.decodeFailed e), [])
    | .ok _ =>
      match b.nodesByID value.nodeID with
      | none => (none, [])
      | some p =>
        match (b.nodeHeap p).valueWatchers value.property.string with
        | none => (none, [])
        | some cell => (none, b.cellHeap cell)

/-! ## Concrete fixtures -/

/-- The composite key from the example in broker.go's handleWriteValueResp
comment. -/
def exKey : ValueID :=
  { nodeID := 4, commandClass := 38, endpoint := 0, property := "targetValue" }

/-- A second, distinct composite key. -/
def exKey2 : ValueID :=
  { nodeID := 4, commandClass := 38, endpoint := 0, property := "currentValue" }

/-- The successful write acknowledgement payload quoted in broker.go. -/
def exAckPayload : Json :=
  .obj [("success", .bool true), ("message", .str "Success zwave api call"),
        ("args", .arr [.obj [("nodeId", .num 4), ("commandClass", .num 38),
                             ("endpoint", .num 0), ("property", .str "targetValue")],
                       .num 93])]

/-- The decoded form of `exAckPayload`. -/
def exAckResp : WriteValueResp :=
  { success := true, message := "Success zwave api call", valueID := exKey,
    value := .num 93 }

/-- A failed write acknowledgement carrying message "X". -/
def exFailAckPayload : Json :=
  .obj [("success", .bool false), ("message", .str "X"),
        ("args", .arr [.obj [("nodeId", .num 4), ("commandClass", .num 38),
                             ("endpoint", .num 0), ("property", .str "targetValue")],
                       .num 93])]

/-- The decoded form of `exFailAckPayload`. -/
def exFailAckResp : WriteValueResp :=
  { success := false, message := "X", valueID := exKey, value := .num 93 }

/-- The `38-0-currentValue` value of the spec's example scenario. -/
def exValue : Value :=
  { id := "38-0-currentValue", nodeID := 4, commandClass := 38, endpoint := 0,
    property := { s := "currentValue", i := 0 }, type := "number",
    rawValue := some (.num 3) }

/-- The example device `kitchen-light` from the spec's example scenario. -/
def exApiNode : ApiNode :=
  { id := 4, name := "kitchen-light", failed := false,
    values := [("38-0-currentValue", exValue)] }

/-- A successful bootstrap response holding only `kitchen-light`. -/
def exResp : GetNodesResp := { success := true, message := "", result := [exApiNode] }

/-- The directory after bootstrapping `exResp` into an empty broker. -/
def exBroker : Broker := (emptyBroker.handleGetNodesResp exResp).1

/-- The delta descriptor announcing a change of `38-0-currentValue`. -/
def exUpd : UpdateDescriptor :=
  { commandClass := 38, endpoint := 0,
    property := { s := "currentValue", i := 0 }, propertyKey := "" }

/-! ## C3: SetAttr cleanup -/

/-- C3 counterexample. The claim states that an exiting `SetAttr` call
removes the completion slot only if it still points at its own slot, and
that a newer call's slot that replaced it is left registered. In the code
the deferred cleanup is an unconditional `delete(b.setAttr, vid)`: after
call A (channel 1) registers, call B (channel 2) supersedes it, and A's
cleanup runs, the entry is `none` — B's slot has been removed, not left
registered. -/
theorem cleanup_removes_newer_slot_counterexample :
    ((((emptyBroker.registerWait exKey 1).registerWait exKey 2)).setAttr exKey
        = some 2) ∧
    ((((emptyBroker.registerWait exKey 1).registerWait exKey 2).cleanupWait
        exKey).setAttr exKey = none) := by
  exact ⟨rfl, rfl⟩

/-- C3 amended: on every exit path of `SetAttr` the deferred cleanup
removes the completion slot under the composite key unconditionally — even
when a newer call's slot has replaced this call's slot — while entries at
every other key are untouched. -/
theorem cleanup_unconditional_delete (b : Broker) (k k2 : ValueID) :
    ((b.cleanupWait k).setAttr k = none) ∧
    (k2 ≠ k → (b.cleanupWait k).setAttr k2 = b.setAttr k2) := by
  constructor
  · simp [Broker.cleanupWait]
  · intro h
    simp [Broker.cleanupWait, h]

/-- Witness for `cleanup_unconditional_delete` at the concrete keys
`exKey` and `exKey2`. -/
theorem cleanup_unconditional_delete_witness :
    (((emptyBroker.registerWait exKey 2).cleanupWait exKey).setAttr exKey = none) ∧
    (((emptyBroker.registerWait exKey 2).cleanupWait exKey).setAttr exKey2 =
      (emptyBroker.registerWait exKey 2).setAttr exKey2) :=
  ⟨(cleanup_unconditional_delete (emptyBroker.registerWait exKey 2) exKey exKey2).1,
   (cleanup_unconditional_delete (emptyBroker.registerWait exKey 2) exKey exKey2).2
     (by decide)⟩

/-! ## C2: late acknowledgements -/

/-- The pending-write trace of the C2 counterexample: call A (channel 1)
registers under `exKey`, A's deadline fires and its deferred cleanup
deletes the entry, call B (channel 2) registers under the same key, and
then the acknowledgement elicited by A's publish (ghost origin 1) is
handled. -/
def lateAckState : Broker × Option WVError :=
  (((emptyBroker.registerWait exKey 1).cleanupWait exKey).registerWait
    exKey 2).handleWriteValueResp 1 exAckPayload

/-- C2 counterexample. The claim states that an acknowledgement belonging
to the earlier call is never delivered to the later call at the same key,
and that one arriving after the earlier call's deadline fired is dropped.
In the code acknowledgements are matched by composite key alone: in the
trace of `lateAckState` the acknowledgement of call A's publish (origin 1)
arrives after A's deadline fired and its cleanup ran, yet it is delivered
into call B's channel (channel 2), unblocking B with a result that belongs
to A. -/
theorem late_ack_misdelivered_counterexample :
    (lateAckState.1.chanBufs 2 = [(1, none)]) ∧ (lateAckState.2 = none) := by
  exact ⟨rfl, rfl⟩

/-- C2 amended: an acknowledgement arriving when no completion slot is
registered under its composite key — for example after the earlier call's
deadline fired and its cleanup removed the entry, with no newer
registration since — is dropped silently, with no panic, no state change
and no error. But acknowledgements are matched by composite key alone:
one that arrives while some call's slot is registered under the key is
delivered into that slot's channel regardless of which call's publish
elicited it, so an earlier call's late acknowledgement can complete a
newer call registered after the earlier call's cleanup ran. -/
theorem ack_after_cleanup_matched_by_key (b : Broker) (origin : Nat) (j : Json)
    (resp : WriteValueResp) (hj : WriteValueResp.unmarshalJSON j = .ok resp) :
    (b.setAttr resp.valueID = none → b.handleWriteValueResp origin j = (b, none)) ∧
    (∀ c, b.setAttr resp.valueID = some c →
      (b.handleWriteValueResp origin j).1.chanBufs c =
        b.chanBufs c ++ [(origin, if resp.success then none else some resp.message)]) := by
  constructor
  · intro h
    simp [Broker.handleWriteValueResp, hj, h]
  · intro c h
    by_cases hs : resp.success <;>
      simp [Broker.handleWriteValueResp, hj, h, hs]

/-- Witness for `ack_after_cleanup_matched_by_key`: the dropped case on an
empty table, and the delivered case for a registered channel 2. -/
theorem ack_after_cleanup_matched_by_key_witness :
    (emptyBroker.handleWriteValueResp 0 exAckPayload = (emptyBroker, none)) ∧
    (((emptyBroker.registerWait exKey 2).handleWriteValueResp 0 exAckPayload).1.chanBufs 2 =
      (emptyBroker.registerWait exKey 2).chanBufs 2 ++ [(0, none)]) :=
  ⟨(ack_after_cleanup_matched_by_key emptyBroker 0 exAckPayload exAckResp rfl).1 rfl,
   (ack_after_cleanup_matched_by_key (emptyBroker.registerWait exKey 2) 0
      exAckPayload exAckResp rfl).2 2 rfl⟩

/-! ## C5: SetAttr on unknown device or property -/

/-- C5: `SetAttr` with a device name absent from the directory returns the
node-not-found error, and with a property name absent on the resolved
device returns the attribute-not-found error; on both paths the outcome is
`SetAttrOutcome.err`, the constructor on which the Publisher is never
invoked (only `SetAttrOutcome.published` carries a published message). -/
theorem setAttr_unknown_returns_notfound (b : Broker) (nodeName property : String)
    (value : Json) :
    (b.nodesByName nodeName = none →
      b.setAttrStart nodeName property value = .err (.nodeNotFound nodeName)) ∧
    (∀ p, b.nodesByName nodeName = some p →
      (b.nodeHeap p).valuesByProperty property = none →
      b.setAttrStart nodeName property value = .err (.attrNotFound nodeName property)) := by
  constructor
  · intro h
    simp [Broker.setAttrStart, h]
  · intro p h hv
    simp [Broker.setAttrStart, h, hv]

/-- Witness for `setAttr_unknown_returns_notfound` on the example
directory: an unknown device name, and a known device with an unknown
property name. -/
theorem setAttr_unknown_returns_notfound_witness :
    (exBroker.setAttrStart "nope" "currentValue" (.num 50) =
      .err (.nodeNotFound "nope")) ∧
    (exBroker.setAttrStart "kitchen-light" "missing" (.num 50) =
      .err (.attrNotFound "kitchen-light" "missing")) :=
  ⟨(setAttr_unknown_returns_notfound exBroker "nope" "currentValue" (.num 50)).1 rfl,
   (setAttr_unknown_returns_notfound exBroker "kitchen-light" "missing" (.num 50)).2
     0 rfl rfl⟩

/-! ## C6: write acknowledgements unblocking SetAttr -/

/-- C6: when a write acknowledgement decodes successfully and its composite
key matches a registered in-flight call's channel, the handler delivers
into that channel exactly the value the blocked `SetAttr` then returns:
`none` (no error) when the acknowledgement reports success, and the
remote-failure message when it reports failure — in which case the handler
also returns the same remote-failure error. -/
theorem write_ack_unblocks_call (b : Broker) (origin c : Nat) (j : Json)
    (resp : WriteValueResp) (hj : WriteValueResp.unmarshalJSON j = .ok resp)
    (hreg : b.setAttr resp.valueID = some c) :
    b.handleWriteValueResp origin j =
      ({ b with chanBufs := fun c2 =>
           if c2 = c then
             b.chanBufs c ++ [(origin, if resp.success then none else some resp.message)]
           else b.chanBufs c2 },
       if resp.success then none else some (.remoteFailure resp.message)) := by
  by_cases hs : resp.success <;>
    simp [Broker.handleWriteValueResp, hj, hreg, hs]

/-- Witness for `write_ack_unblocks_call`: a failed acknowledgement with
message "X" delivered to the registered channel 7. -/
theorem write_ack_unblocks_call_witness :
    (((emptyBroker.registerWait exKey 7).handleWriteValueResp 0
        exFailAckPayload).1.chanBufs 7 = [(0, some "X")]) ∧
    (((emptyBroker.registerWait exKey 7).handleWriteValueResp 0
        exFailAckPayload).2 = some (.remoteFailure "X")) := by
  rw [write_ack_unblocks_call (emptyBroker.registerWait exKey 7) 0 7 exFailAckPayload
    exFailAckResp rfl rfl]
  exact ⟨rfl, rfl⟩

/-! ## C10: list-typed values -/

/-- C10: for every value whose declared type is one of the list variants
`number[]`, `boolean[]` or `string[]` — all listed by the api package as
valid declared value types — `Value.Value()` falls through to the default
case and returns the unknown-value-type error, never a decoded value. -/
theorem list_types_never_decode (v : Value)
    (h : v.type = TypeListNumber ∨ v.type = TypeListBool ∨ v.type = TypeListString) :
    v.value = .error (.unknownType v.type) := by
  rcases h with h | h | h <;>
    simp [Value.value, h, TypeNumber, TypeBool, TypeString, TypeColor,
      TypeDuration, TypeAny, TypeListNumber, TypeListBool, TypeListString]

/-- A value declaring the list type `number[]`. -/
def exListValue : Value :=
  { id := "112-0-102", nodeID := 4, commandClass := 112, endpoint := 0,
    property := { s := "102", i := 0 }, type := "number[]",
    rawValue := some (.arr [.num 1, .num 2]) }

/-- Witness for `list_types_never_decode` at a concrete `number[]` value. -/
theorem list_types_never_decode_witness :
    exListValue.value = .error (.unknownType "number[]") :=
  list_types_never_decode exListValue (Or.inl rfl)

/-! ## C7: type-directed value decoding -/

/-- A string-typed value whose raw payload is JSON `null`. -/
def exStringNullValue : Value :=
  { id := "135-0-name", nodeID := 4, commandClass := 135, endpoint := 0,
    property := { s := "name", i := 0 }, type := "string", rawValue := some .null }

/-- C7 counterexample. The claim states that string/color types require a
JSON string and that decoding fails with a TypeMismatch error when the raw
payload does not match the expected shape. But Go's `json.Unmarshal`
treats a JSON `null` as a no-op for any target type, so a string-typed
value whose raw payload is `null` decodes successfully to the empty
string instead of failing. -/
theorem string_null_decodes_counterexample :
    exStringNullValue.value = .ok (.str "") := by
  exact rfl

/-- C7 amended: decoding is type-directed as claimed — integer and boolean
types decode an absent payload to the zero value and a JSON scalar to
itself; string/color types decode a JSON string and fail on an absent
payload or any other shape; a duration payload's unit tag decodes to
exactly `time.Second` for "seconds", `time.Minute` for "minutes", and a
zero duration otherwise; the any type passes the raw message through
unchanged; any unrecognized declared type fails — except that a JSON
`null` payload is accepted for the integer, boolean, string and color
types and decodes to the type's zero value (Go's null-is-no-op
unmarshalling). -/
theorem value_decoding_type_directed (v : Value) :
    (v.type = TypeNumber → v.rawValue = none → v.value = .ok (.int 0)) ∧
    (v.type = TypeNumber → ∀ n, v.rawValue = some (.num n) → v.value = .ok (.int n)) ∧
    (v.type = TypeNumber → v.rawValue = some .null → v.value = .ok (.int 0)) ∧
    (v.type = TypeNumber → ∀ j, v.rawValue = some j → (∀ n, j ≠ .num n) → j ≠ .null →
      v.value = .error (.parseFailure v.type)) ∧
    (v.type = TypeBool → v.rawValue = none → v.value = .ok (.bool false)) ∧
    (v.type = TypeBool → ∀ bo, v.rawValue = some (.bool bo) → v.value = .ok (.bool bo)) ∧
    (v.type = TypeBool → v.rawValue = some .null → v.value = .ok (.bool false)) ∧
    (v.type = TypeBool → ∀ j, v.rawValue = some j → (∀ bo, j ≠ .bool bo) → j ≠ .null →
      v.value = .error (.parseFailure v.type)) ∧
    ((v.type = TypeString ∨ v.type = TypeColor) → ∀ s, v.rawValue = some (.str s) →
      v.value = .ok (.str s)) ∧
    ((v.type = TypeString ∨ v.type = TypeColor) → v.rawValue = some .null →
      v.value = .ok (.str "")) ∧
    ((v.type = TypeString ∨ v.type = TypeColor) → v.rawValue = none →
      v.value = .error (.parseFailure v.type)) ∧
    ((v.type = TypeString ∨ v.type = TypeColor) → ∀ j, v.rawValue = some j →
      (∀ s, j ≠ .str s) → j ≠ .null → v.value = .error (.parseFailure v.type)) ∧
    (v.type = TypeDuration → ∀ j, v.rawValue = some j →
      unmarshalUnitStruct j = .ok DurationSeconds → v.value = .ok (.duration timeSecond)) ∧
    (v.type = TypeDuration → ∀ j, v.rawValue = some j →
      unmarshalUnitStruct j = .ok DurationMinutes → v.value = .ok (.duration timeMinute)) ∧
    (v.type = TypeDuration → ∀ j u, v.rawValue = some j →
      unmarshalUnitStruct j = .ok u → u ≠ DurationSeconds → u ≠ DurationMinutes →
      v.value = .ok (.duration 0)) ∧
    (v.type = TypeDuration → v.rawValue = none → v.value = .error (.parseFailure v.type)) ∧
    (v.type = TypeDuration → ∀ j e, v.rawValue = some j →
      unmarshalUnitStruct j = .error e → v.value = .error (.parseFailure v.type)) ∧
    (v.type = TypeAny → v.value = .ok (.raw v.rawValue)) ∧
    (v.type ≠ TypeNumber → v.type ≠ TypeBool → v.type ≠ TypeString →
      v.type ≠ TypeColor → v.type ≠ TypeDuration → v.type ≠ TypeAny →
      v.value = .error (.unknownType v.type)) := by
  refine ⟨?_, ?_, ?_, ?_, ?_, ?_, ?_, ?_, ?_, ?_, ?_, ?_, ?_, ?_, ?_, ?_, ?_, ?_, ?_⟩
  · intro ht hr
    simp [Value.value, ht, hr, TypeNumber]
  · intro ht n hr
    simp [Value.value, ht, hr, TypeNumber, unmarshalInt]
  · intro ht hr
    simp [Value.value, ht, hr, TypeNumber, unmarshalInt]
  · intro ht j hr hn hnull
    cases j <;>
      simp_all [Value.value, TypeNumber, unmarshalInt]
  · intro ht hr
    simp [Value.value, ht, hr, TypeBool, TypeNumber]
  · intro ht bo hr
    simp [Value.value, ht, hr, TypeBool, TypeNumber, unmarshalBool]
  · intro ht hr
    simp [Value.value, ht, hr, TypeBool, TypeNumber, unmarshalBool]
  · intro ht j hr hb hnull
    cases j <;>
      simp_all [Value.value, TypeBool, TypeNumber, unmarshalBool]
  · intro ht s hr
    rcases ht with ht | ht <;>
      simp [Value.value, ht, hr, TypeString, TypeColor, TypeNumber, TypeBool,
        unmarshalString]
  · intro ht hr
    rcases ht with ht | ht <;>
      simp [Value.value, ht, hr, TypeString, TypeColor, TypeNumber, TypeBool,
        unmarshalString]
  · intro ht hr
    rcases ht with ht | ht <;>
      simp [Value.value, ht, hr, TypeString, TypeColor, TypeNumber, TypeBool]
  · intro ht j hr hs hnull
    rcases ht with ht | ht <;> cases j <;>
      simp_all [Value.value, TypeString, TypeColor, TypeNumber, TypeBool,
        unmarshalString]
  · intro ht j hr hu
    simp [Value.value, ht, hr, hu, TypeDuration, TypeNumber, TypeBool, TypeString,
      TypeColor, DurationSeconds]
  · intro ht j hr hu
    simp [Value.value, ht, hr, hu, TypeDuration, TypeNumber, TypeBool, TypeString,
      TypeColor, DurationSeconds, DurationMinutes]
  · intro ht j u hr hu hs hm
    simp [Value.value, ht, hr, hu, hs, hm, TypeDuration, TypeNumber, TypeBool,
      TypeString, TypeColor]
  · intro ht hr
    simp [Value.value, ht, hr, TypeDuration, TypeNumber, TypeBool, TypeString,
      TypeColor]
  · intro ht j e hr hu
    simp [Value.value, ht, hr, hu, TypeDuration, TypeNumber, TypeBool, TypeString,
      TypeColor]
  · intro ht
    simp [Value.value, ht, TypeAny, TypeNumber, TypeBool, TypeString, TypeColor,
      TypeDuration]
  · intro h1 h2 h3 h4 h5 h6
    simp [Value.value, h1, h2, h3, h4, h5, h6]

/-- A number-typed value with an absent raw payload. -/
def exNumAbsentValue : Value :=
  { id := "38-0-targetValue", nodeID := 4, commandClass := 38, endpoint := 0,
    property := { s := "targetValue", i := 0 }, type := "number", rawValue := none }

/-- A duration-typed value with unit tag "seconds". -/
def exDurValue : Value :=
  { id := "38-0-duration", nodeID := 4, commandClass := 38, endpoint := 0,
    property := { s := "duration", i := 0 }, type := "duration",
    rawValue := some (.obj [("unit", .str "seconds"), ("value", .num 1)]) }

/-- A boolean-typed value whose raw payload is a JSON string (wrong shape). -/
def exBadBoolValue : Value :=
  { id := "37-0-targetValue", nodeID := 4, commandClass := 37, endpoint := 0,
    property := { s := "targetValue", i := 0 }, type := "boolean",
    rawValue := some (.str "yes") }

/-- Witness for `value_decoding_type_directed` at concrete values: a
number decoding a scalar, an absent number payload as zero, a duration
unit tag, a mis-shaped boolean payload, and an unrecognized type. -/
theorem value_decoding_type_directed_witness :
    (exValue.value = .ok (.int 3)) ∧
    (exNumAbsentValue.value = .ok (.int 0)) ∧
    (exDurValue.value = .ok (.duration timeSecond)) ∧
    (exBadBoolValue.value = .error (.parseFailure "boolean")) ∧
    (exStringNullValue.value = .ok (.str "")) :=
  ⟨(value_decoding_type_directed exValue).2.1 rfl 3 rfl,
   (value_decoding_type_directed exNumAbsentValue).1 rfl rfl,
   (value_decoding_type_directed exDurValue).2.2.2.2.2.2.2.2.2.2.2.2.1 rfl
     (.obj [("unit", .str "seconds"), ("value", .num 1)]) rfl rfl,
   (value_decoding_type_directed exBadBoolValue).2.2.2.2.2.2.2.1 rfl
     (.str "yes") rfl (fun _ h => Json.noConfusion h) (fun h => Json.noConfusion h),
   (value_decoding_type_directed exStringNullValue).2.2.2.2.2.2.2.2.2.1
     (Or.inl rfl) rfl⟩

/-! ## C9: change-notification correlation failures -/

/-- C9 counterexample. The claim states the handler fails with a NotFound
error when the owning device id is unknown to the live directory. In the
code that branch is `return nil`: with an empty directory (so node id 4 is
unknown) and a snapshot containing the updated value, the handler returns
no error and makes no deliveries. -/
theorem unknown_node_id_tolerated_counterexample :
    (emptyBroker.nodesByID 4 = none) ∧
    (emptyBroker.handleNodeValueUpdated [("38-0-currentValue", exValue)] exUpd
      = (none, [])) := by
  exact ⟨rfl, rfl⟩

/-- C9 amended: the handler fails with the not-found error (reported to
the dispatch layer, not fatal) when the derived composite identifier
matches no value in the snapshot embedded in the notification; but when
the owning device id is unknown to the live directory it returns success
with no deliveries — that case is silently tolerated, not reported. -/
theorem node_value_updated_notfound (b : Broker) (snapshot : List (String × Value))
    (upd : UpdateDescriptor) :
    (lookupValue snapshot (derivedId upd) = none →
      b.handleNodeValueUpdated snapshot upd =
        (some (.updateNotFound (derivedId upd)), [])) ∧
    (∀ v gv, lookupValue snapshot (derivedId upd) = some v → v.value = .ok gv →
      b.nodesByID v.nodeID = none →
      b.handleNodeValueUpdated snapshot upd = (none, [])) := by
  constructor
  · intro h
    simp [Broker.handleNodeValueUpdated, h]
  · intro v gv h hv hn
    simp [Broker.handleNodeValueUpdated, h, hv, hn]

/-- Witness for `node_value_updated_notfound`: an empty snapshot yields the
not-found error, and an unknown device id yields success with no
deliveries. -/
theorem node_value_updated_notfound_witness :
    (emptyBroker.handleNodeValueUpdated [] exUpd =
      (some (.updateNotFound "38-0-currentValue"), [])) ∧
    (emptyBroker.handleNodeValueUpdated [("38-0-currentValue", exValue)] exUpd
      = (none, [])) :=
  ⟨(node_value_updated_notfound emptyBroker [] exUpd).1 rfl,
   (node_value_updated_notfound emptyBroker [("38-0-currentValue", exValue)]
      exUpd).2 exValue (.int 3) rfl rfl rfl⟩

/-! ## Bootstrap lemmas (for C1 and C4) -/

/-- The ids of the non-failed entries of a response result list. -/
def nonFailedIds (l : List ApiNode) : List Int :=
  (l.filter (fun n => !n.failed)).map (fun n => n.id)

/-- The names of the non-failed entries of a response result list. -/
def nonFailedNames (l : List ApiNode) : List String :=
  (l.filter (fun n => !n.failed)).map (fun n => n.name)

theorem installNode_nodesByID (b : Broker) (n : ApiNode) (d : Int) :
    (b.installNode n).nodesByID d =
      if d = n.id then some b.nextNode else b.nodesByID d := rfl

theorem installNode_nodesByName (b : Broker) (n : ApiNode) (s : String) :
    (b.installNode n).nodesByName s =
      if n.name ≠ "" ∧ s = n.name then some b.nextNode else b.nodesByName s := rfl

/-- After a successful install loop, an id is indexed iff it was indexed
before or belongs to a non-failed entry of the list. -/
theorem installNodes_ok_byID (l : List ApiNode) :
    ∀ (b b2 : Broker), b.installNodes l = .ok b2 →
      ∀ d, (b2.nodesByID d).isSome ↔ (b.nodesByID d).isSome ∨ d ∈ nonFailedIds l := by
  induction l with
  | nil =>
    intro b b2 h d
    simp only [Broker.installNodes, Except.ok.injEq] at h
    subst h
    simp [nonFailedIds]
  | cons n rest ih =>
    intro b b2 h d
    simp only [Broker.installNodes] at h
    by_cases hf : n.failed = true
    · rw [if_pos hf] at h
      rw [ih _ _ h]
      simp [nonFailedIds, List.filter_cons, hf]
    · rw [if_neg hf] at h
      by_cases hdup : (b.nodesByName n.name).isSome = true
      · rw [if_pos hdup] at h
        exact absurd h (by simp)
      · rw [if_neg hdup] at h
        rw [ih _ _ h, installNode_nodesByID]
        by_cases hd : d = n.id <;>
          simp [hd, nonFailedIds, List.filter_cons, hf, or_assoc]

/-- After a successful install loop, a name is indexed iff it was indexed
before or is the non-empty name of a non-failed entry of the list. -/
theorem installNodes_ok_byName (l : List ApiNode) :
    ∀ (b b2 : Broker), b.installNodes l = .ok b2 →
      ∀ s, (b2.nodesByName s).isSome ↔
        (b.nodesByName s).isSome ∨ (s ≠ "" ∧ s ∈ nonFailedNames l) := by
  induction l with
  | nil =>
    intro b b2 h s
    simp only [Broker.installNodes, Except.ok.injEq] at h
    subst h
    simp [nonFailedNames]
  | cons n rest ih =>
    intro b b2 h s
    simp only [Broker.installNodes] at h
    by_cases hf : n.failed = true
    · rw [if_pos hf] at h
      rw [ih _ _ h]
      simp [nonFailedNames, List.filter_cons, hf]
    · rw [if_neg hf] at h
      by_cases hdup : (b.nodesByName n.name).isSome = true
      · rw [if_pos hdup] at h
        exact absurd h (by simp)
      · rw [if_neg hdup] at h
        rw [ih _ _ h, installNode_nodesByName]
        by_cases hne : n.name = "" <;> by_cases hs : s = n.name <;>
          simp_all [nonFailedNames, List.filter_cons, or_assoc]

/-- The broker state carried by the install loop's result, whether it
succeeded or aborted on a duplicate name. -/
def instBroker : Except (Broker × String) Broker → Broker
  | .ok b => b
  | .error (b, _) => b

/-- Whatever the install loop's outcome, a name it leaves indexed was
either indexed before the loop or is the non-empty name of a non-failed
entry of the list. -/
theorem installNodes_reach_byName (l : List ApiNode) :
    ∀ (b : Broker) (s : String), ((instBroker (b.installNodes l)).nodesByName s).isSome →
      (b.nodesByName s).isSome ∨ (s ≠ "" ∧ s ∈ nonFailedNames l) := by
  induction l with
  | nil =>
    intro b s h
    exact Or.inl h
  | cons n rest ih =>
    intro b s h
    simp only [Broker.installNodes] at h
    by_cases hf : n.failed = true
    · rw [if_pos hf] at h
      rcases ih b s h with h2 | h2
      · exact Or.inl h2
      · exact Or.inr ⟨h2.1, by simp [nonFailedNames, List.filter_cons, hf] at h2 ⊢; exact h2.2⟩
    · rw [if_neg hf] at h
      by_cases hdup : (b.nodesByName n.name).isSome = true
      · rw [if_pos hdup] at h
        exact Or.inl h
      · rw [if_neg hdup] at h
        rcases ih _ s h with h2 | h2
        · rw [installNode_nodesByName] at h2
          by_cases hc : n.name ≠ "" ∧ s = n.name
          · exact Or.inr ⟨hc.2 ▸ hc.1, by
              simp [nonFailedNames, List.filter_cons, hf, hc.2]⟩
          · rw [if_neg hc] at h2
            exact Or.inl h2
        · exact Or.inr ⟨h2.1, by
            simp [nonFailedNames, List.filter_cons, hf]
            exact Or.inr (by simpa [nonFailedNames] using h2.2)⟩

/-- Whatever the install loop's outcome, an id it leaves indexed was
either indexed before the loop or is the id of a non-failed entry of the
list. -/
theorem installNodes_reach_byID (l : List ApiNode) :
    ∀ (b : Broker) (d : Int), ((instBroker (b.installNodes l)).nodesByID d).isSome →
      (b.nodesByID d).isSome ∨ d ∈ nonFailedIds l := by
  induction l with
  | nil =>
    intro b d h
    exact Or.inl h
  | cons n rest ih =>
    intro b d h
    simp only [Broker.installNodes] at h
    by_cases hf : n.failed = true
    · rw [if_pos hf] at h
      rcases ih b d h with h2 | h2
      · exact Or.inl h2
      · exact Or.inr (by simp [nonFailedIds, List.filter_cons, hf] at h2 ⊢; exact h2)
    · rw [if_neg hf] at h
      by_cases hdup : (b.nodesByName n.name).isSome = true
      · rw [if_pos hdup] at h
        exact Or.inl h
      · rw [if_neg hdup] at h
        rcases ih _ d h with h2 | h2
        · rw [installNode_nodesByID] at h2
          by_cases hd : d = n.id
          · exact Or.inr (by simp [nonFailedIds, List.filter_cons, hf, hd])
          · rw [if_neg hd] at h2
            exact Or.inl h2
        · exact Or.inr (by
            simp [nonFailedIds, List.filter_cons, hf]
            exact Or.inr (by simpa [nonFailedIds] using h2))

/-- Installing a node preserves indexed names. -/
theorem installNode_byName_mono (b : Broker) (n : ApiNode) (s : String)
    (h : (b.nodesByName s).isSome) : ((b.installNode n).nodesByName s).isSome := by
  rw [installNode_nodesByName]
  by_cases hc : n.name ≠ "" ∧ s = n.name
  · rw [if_pos hc]
    rfl
  · rw [if_neg hc]
    exact h

/-- If some non-failed entry of the list carries an already-indexed
non-empty name, the install loop aborts with an error. -/
theorem installNodes_err_of_mem (l : List ApiNode) :
    ∀ (b : Broker) (s : String), s ≠ "" → (b.nodesByName s).isSome →
      (∃ n, n ∈ l ∧ n.failed = false ∧ n.name = s) →
      ∃ be, b.installNodes l = .error be := by
  induction l with
  | nil =>
    rintro b s hs hb ⟨n, hn, -, -⟩
    exact absurd hn (List.not_mem_nil n)
  | cons m rest ih =>
    rintro b s hs hb ⟨n, hn, hnf, hname⟩
    simp only [Broker.installNodes]
    by_cases hmf : m.failed = true
    · rw [if_pos hmf]
      refine ih b s hs hb ⟨n, ?_, hnf, hname⟩
      rcases List.mem_cons.mp hn with rfl | hn2
      · exact absurd hmf (by simp [hnf])
      · exact hn2
    · rw [if_neg hmf]
      by_cases hdup : (b.nodesByName m.name).isSome = true
      · rw [if_pos hdup]
        exact ⟨_, rfl⟩
      · rw [if_neg hdup]
        rcases List.mem_cons.mp hn with rfl | hn2
        · exact absurd (hname ▸ hb) hdup
        · exact ih (b.installNode m) s hs (installNode_byName_mono b m s hb)
            ⟨n, hn2, hnf, hname⟩

/-- A result list holding two non-failed entries with the same non-empty
name makes the install loop abort with an error, from any starting
state. -/
theorem installNodes_err_of_dup (l1 : List ApiNode) :
    ∀ (n1 : ApiNode) (l2 l3 : List ApiNode) (n2 : ApiNode) (b : Broker),
      n1.failed = false → n2.failed = false → n1.name = n2.name → n1.name ≠ "" →
      ∃ be, b.installNodes (l1 ++ n1 :: l2 ++ n2 :: l3) = .error be := by
  induction l1 with
  | nil =>
    intro n1 l2 l3 n2 b h1 h2 hn hne
    simp only [List.nil_append, Broker.installNodes]
    rw [if_neg (by simp [h1])]
    by_cases hdup : (b.nodesByName n1.name).isSome = true
    · rw [if_pos hdup]
      exact ⟨_, rfl⟩
    · rw [if_neg hdup]
      refine installNodes_err_of_mem (l2 ++ n2 :: l3) (b.installNode n1) n1.name hne
        ?_ ⟨n2, by simp, h2, hn.symm⟩
      rw [installNode_nodesByName]
      rw [if_pos ⟨hne, rfl⟩]
      rfl
  | cons m l1' ih =>
    intro n1 l2 l3 n2 b h1 h2 hn hne
    simp only [List.cons_append, Broker.installNodes]
    by_cases hmf : m.failed = true
    · rw [if_pos hmf]
      exact ih n1 l2 l3 n2 b h1 h2 hn hne
    · rw [if_neg hmf]
      by_cases hdup : (b.nodesByName m.name).isSome = true
      · rw [if_pos hdup]
        exact ⟨_, rfl⟩
      · rw [if_neg hdup]
        exact ih n1 l2 l3 n2 (b.installNode m) h1 h2 hn hne

/-! ## C4: successful bootstraps -/

/-- C4: after every successful bootstrap, the id index holds exactly the
ids of the response's non-failed devices, and the name index holds exactly
their non-empty names — so a device from a prior bootstrap whose id (or
name) does not appear among the response's non-failed entries is no longer
reachable by id (or name). -/
theorem bootstrap_success_directory (b b2 : Broker) (resp : GetNodesResp)
    (h : b.handleGetNodesResp resp = (b2, none)) :
    (∀ d, (b2.nodesByID d).isSome ↔ d ∈ nonFailedIds resp.result) ∧
    (∀ s, (b2.nodesByName s).isSome ↔ (s ≠ "" ∧ s ∈ nonFailedNames resp.result)) := by
  unfold Broker.handleGetNodesResp at h
  by_cases hs : resp.success = true
  · rw [hs] at h
    simp only [Bool.not_true, Bool.false_eq_true, if_false] at h
    cases hI : b.clearNodes.installNodes resp.result with
    | ok b3 =>
      rw [hI] at h
      obtain rfl : b3 = b2 := by simpa using h
      constructor
      · intro d
        rw [installNodes_ok_byID _ _ _ hI]
        simp [Broker.clearNodes]
      · intro s
        rw [installNodes_ok_byName _ _ _ hI]
        simp [Broker.clearNodes]
    | error be =>
      rw [hI] at h
      cases be
      simp at h
  · have hs2 : resp.success = false := by
      cases hv : resp.success
      · rfl
      · exact absurd hv hs
    rw [hs2] at h
    simp at h

/-- A successful response holding `kitchen-light` plus a failed device. -/
def exRespMixed : GetNodesResp :=
  { success := true, message := "",
    result := [exApiNode, { id := 9, name := "dead", failed := true, values := [] }] }

/-- The directory after bootstrapping `exRespMixed` into an empty broker. -/
def exBrokerMixed : Broker := (emptyBroker.handleGetNodesResp exRespMixed).1

/-- Witness for `bootstrap_success_directory`: after bootstrapping a
response with one live and one failed device, the live device is reachable
by id and name while the failed device is reachable by neither. -/
theorem bootstrap_success_directory_witness :
    ((exBrokerMixed.nodesByID 4).isSome) ∧
    (¬ (exBrokerMixed.nodesByID 9).isSome) ∧
    ((exBrokerMixed.nodesByName "kitchen-light").isSome) ∧
    (¬ (exBrokerMixed.nodesByName "dead").isSome) := by
  have h := bootstrap_success_directory emptyBroker exBrokerMixed exRespMixed rfl
  refine ⟨(h.1 4).mpr ?_, fun hx => ?_, (h.2 "kitchen-light").mpr ⟨by decide, ?_⟩,
    fun hx => ?_⟩
  · simp [nonFailedIds, exRespMixed, exApiNode]
  · have h9 := (h.1 9).mp hx
    simp [nonFailedIds, exRespMixed, exApiNode] at h9
  · simp [nonFailedNames, exRespMixed, exApiNode]
  · have hd := (h.2 "dead").mp hx
    simp [nonFailedNames, exRespMixed, exApiNode] at hd

/-! ## C1: bootstrap aborted by a duplicate name -/

/-- A response carrying two non-failed entries that share the name "a". -/
def exRespDup : GetNodesResp :=
  { success := true, message := "",
    result := [{ id := 2, name := "a", failed := false, values := [] },
               { id := 3, name := "a", failed := false, values := [] }] }

/-- The state after the duplicate-name response hits the directory built
from `exResp`. -/
def exFailState : Broker × Option String := exBroker.handleGetNodesResp exRespDup

/-- C1 counterexample. The claim states that a bootstrap aborted by a
duplicate name leaves the previously-installed directory untouched. In the
code both indices are cleared before installation begins and the loop
returns mid-way on the duplicate, so after the failed bootstrap the prior
device (id 4, name "kitchen-light") is gone from both indices while the
first entry of the failed response (id 2, name "a") has been installed —
the duplicate-name error is returned, but the prior directory is
destroyed, not preserved. -/
theorem bootstrap_duplicate_destroys_prior_counterexample :
    (exFailState.2 = some "duplicate node name a") ∧
    (exFailState.1.nodesByID 4 = none) ∧
    (exFailState.1.nodesByName "kitchen-light" = none) ∧
    ((exFailState.1.nodesByID 2).isSome = true) ∧
    ((exFailState.1.nodesByName "a").isSome = true) := by
  exact ⟨rfl, rfl, rfl, rfl, rfl⟩

/-- C1 amended: a bootstrap response holding two non-failed entries that
share a non-empty name makes the bootstrap return the duplicate-name
error, but the previously-installed directory does not survive: both
indices are cleared before installation starts, so every name or id still
reachable after the failure comes from the failed response's own
(non-failed) entries — the prior directory is discarded, and the partially
installed prefix of the new response remains. -/
theorem bootstrap_duplicate_partial_install (b : Broker) (resp : GetNodesResp)
    (l1 l2 l3 : List ApiNode) (n1 n2 : ApiNode)
    (hsucc : resp.success = true)
    (hsplit : resp.result = l1 ++ n1 :: l2 ++ n2 :: l3)
    (h1 : n1.failed = false) (h2 : n2.failed = false)
    (hn : n1.name = n2.name) (hne : n1.name ≠ "") :
    ∃ b2 e, b.handleGetNodesResp resp = (b2, some e) ∧
      (∀ s, (b2.nodesByName s).isSome → s ≠ "" ∧ s ∈ nonFailedNames resp.result) ∧
      (∀ d, (b2.nodesByID d).isSome → d ∈ nonFailedIds resp.result) := by
  obtain ⟨be, hbe⟩ :=
    installNodes_err_of_dup l1 n1 l2 l3 n2 b.clearNodes h1 h2 hn hne
  rw [← hsplit] at hbe
  cases be with
  | mk b3 e =>
    refine ⟨b3, e, ?_, ?_, ?_⟩
    · simp [Broker.handleGetNodesResp, hsucc, hbe]
    · intro s hs2
      rcases installNodes_reach_byName resp.result b.clearNodes s
          (by rw [hbe]; exact hs2) with h3 | h3
      · simp [Broker.clearNodes] at h3
      · exact h3
    · intro d hd
      rcases installNodes_reach_byID resp.result b.clearNodes d
          (by rw [hbe]; exact hd) with h3 | h3
      · simp [Broker.clearNodes] at h3
      · exact h3

/-- Witness for `bootstrap_duplicate_partial_install` at the concrete
duplicate response `exRespDup` against the directory built from
`exResp`. -/
theorem bootstrap_duplicate_partial_install_witness :
    ∃ b2 e, exBroker.handleGetNodesResp exRespDup = (b2, some e) ∧
      (∀ s, (b2.nodesByName s).isSome → s ≠ "" ∧ s ∈ nonFailedNames exRespDup.result) ∧
      (∀ d, (b2.nodesByID d).isSome → d ∈ nonFailedIds exRespDup.result) :=
  bootstrap_duplicate_partial_install exBroker exRespDup [] [] []
    { id := 2, name := "a", failed := false, values := [] }
    { id := 3, name := "a", failed := false, values := [] }
    rfl rfl rfl rfl rfl (by decide)

/-! ## Watch/cancel lemmas (for C8) -/

theorem applyCancel_cellHeap (b : Broker) (tok : Nat × Sink) (c : Nat) :
    (b.applyCancel tok).cellHeap c =
      if c = tok.1 then (b.cellHeap tok.1).filter (fun w => w != tok.2)
      else b.cellHeap c := rfl

/-- Membership after a cancel: the sink survives iff it was present and is
not the cancelled sink of the cancelled cell. -/
theorem mem_applyCancel (b : Broker) (tok : Nat × Sink) (c : Nat) (w : Sink) :
    w ∈ (b.applyCancel tok).cellHeap c ↔
      w ∈ b.cellHeap c ∧ (c = tok.1 → w ≠ tok.2) := by
  rw [applyCancel_cellHeap]
  by_cases hc : c = tok.1
  · subst hc
    simp [List.mem_filter]
  · simp [hc]

theorem mem_insertSink (w v : Sink) (l : List Sink) (h : w ∈ insertSink v l) :
    w ∈ l ∨ w = v := by
  unfold insertSink at h
  by_cases hv : v ∈ l
  · rw [if_pos hv] at h
    exact Or.inl h
  · rw [if_neg hv] at h
    rcases List.mem_append.mp h with h2 | h2
    · exact Or.inl h2
    · simp at h2
      exact Or.inr h2

/-- What a successful `WatchValue` does to the watcher cells: the token's
sink is the given one, cells other than the token's are untouched, and the
token's cell gained at most the given sink. -/
theorem watchValue_spec (b b1 : Broker) (nodeName property : String) (v : Sink)
    (tok : Nat × Sink) (h : b.watchValue nodeName property v = .ok (b1, tok)) :
    tok.2 = v ∧
    (∀ c, c ≠ tok.1 → b1.cellHeap c = b.cellHeap c) ∧
    (∀ w, w ∈ b1.cellHeap tok.1 → w ∈ b.cellHeap tok.1 ∨ w = v) := by
  unfold Broker.watchValue at h
  split at h
  · exact absurd h (by simp)
  · split at h
    · exact absurd h (by simp)
    · split at h
      all_goals
        rw [Except.ok.injEq] at h
        obtain ⟨hb, ht⟩ := Prod.mk.injEq .. ▸ h
        subst hb
        subst ht
      · refine ⟨rfl, fun c hc => ?_, fun w hw => ?_⟩
        · simp only [if_neg hc]
        · simp only [if_pos rfl] at hw
          exact mem_insertSink w v _ hw
      · refine ⟨rfl, fun c hc => ?_, fun w hw => ?_⟩
        · simp only [if_neg hc]
        · simp only [if_pos rfl] at hw
          rcases mem_insertSink w v [] hw with h2 | h2
          · exact absurd h2 (List.not_mem_nil w)
          · exact Or.inr h2

/-- The sinks `handleNodeValueUpdated` attempts to deliver to are either
none or exactly one watcher cell's contents. -/
theorem handleNodeValueUpdated_targets (b : Broker) (snapshot : List (String × Value))
    (upd : UpdateDescriptor) :
    (b.handleNodeValueUpdated snapshot upd).2 = [] ∨
      ∃ cell, (b.handleNodeValueUpdated snapshot upd).2 = b.cellHeap cell := by
  unfold Broker.handleNodeValueUpdated
  split
  · exact Or.inl rfl
  · split
    · exact Or.inl rfl
    · split
      · exact Or.inl rfl
      · split
        · exact Or.inl rfl
        · exact Or.inr ⟨_, rfl⟩

/-- Every node the id index reaches was installed by the current bootstrap:
it sits below the allocation cursor and still carries the empty watcher map
it was created with. -/
def WatcherFree (b : Broker) : Prop :=
  ∀ d p, b.nodesByID d = some p →
    p < b.nextNode ∧ (b.nodeHeap p).valueWatchers = fun _ => none

theorem installNode_nextNode (b : Broker) (n : ApiNode) :
    (b.installNode n).nextNode = b.nextNode + 1 := rfl

theorem installNode_nodeHeap (b : Broker) (n : ApiNode) (q : Nat) :
    (b.installNode n).nodeHeap q =
      if q = b.nextNode then n.toNode else b.nodeHeap q := rfl

theorem installNode_watcherFree (b : Broker) (n : ApiNode) (h : WatcherFree b) :
    WatcherFree (b.installNode n) := by
  intro d p hp
  rw [installNode_nodesByID] at hp
  by_cases hd : d = n.id
  · rw [if_pos hd] at hp
    obtain rfl : b.nextNode = p := by simpa using hp
    refine ⟨?_, ?_⟩
    · rw [installNode_nextNode]
      omega
    · rw [installNode_nodeHeap, if_pos rfl]
      rfl
  · rw [if_neg hd] at hp
    obtain ⟨hlt, hwf⟩ := h d p hp
    refine ⟨?_, ?_⟩
    · rw [installNode_nextNode]
      omega
    · rw [installNode_nodeHeap, if_neg (by omega : ¬ p = b.nextNode)]
      exact hwf

theorem installNodes_watcherFree (l : List ApiNode) :
    ∀ (b b2 : Broker), WatcherFree b → b.installNodes l = .ok b2 →
      WatcherFree b2 := by
  induction l with
  | nil =>
    intro b b2 h he
    simp only [Broker.installNodes, Except.ok.injEq] at he
    subst he
    exact h
  | cons n rest ih =>
    intro b b2 h he
    simp only [Broker.installNodes] at he
    by_cases hf : n.failed = true
    · rw [if_pos hf] at he
      exact ih _ _ h he
    · rw [if_neg hf] at he
      by_cases hdup : (b.nodesByName n.name).isSome = true
      · rw [if_pos hdup] at he
        exact absurd he (by simp)
      · rw [if_neg hdup] at he
        exact ih _ _ (installNode_watcherFree b n h) he

theorem clearNodes_watcherFree (b : Broker) : WatcherFree b.clearNodes := by
  intro d p hp
  simp [Broker.clearNodes] at hp

/-- A successful bootstrap leaves a directory whose nodes all carry empty
watcher maps. -/
theorem handleGetNodesResp_watcherFree (b b2 : Broker) (resp : GetNodesResp)
    (h : b.handleGetNodesResp resp = (b2, none)) : WatcherFree b2 := by
  unfold Broker.handleGetNodesResp at h
  by_cases hs : resp.success = true
  · rw [hs] at h
    simp only [Bool.not_true, Bool.false_eq_true, if_false] at h
    cases hI : b.clearNodes.installNodes resp.result with
    | ok b3 =>
      rw [hI] at h
      obtain rfl : b3 = b2 := by simpa using h
      exact installNodes_watcherFree _ _ _ (clearNodes_watcherFree b) hI
    | error be =>
      rw [hI] at h
      cases be
      simp at h
  · have hs2 : resp.success = false := by
      cases hv : resp.success
      · rfl
      · exact absurd hv hs
    rw [hs2] at h
    simp at h

/-- On a watcher-free directory, delivery never consults the watcher
cells, so a cancel (which touches only the cells) cannot change any
notification outcome. -/
theorem handleNodeValueUpdated_cancel_invariant (b : Broker) (tok : Nat × Sink)
    (h : WatcherFree b) (snapshot : List (String × Value)) (upd : UpdateDescriptor) :
    (b.applyCancel tok).handleNodeValueUpdated snapshot upd =
      b.handleNodeValueUpdated snapshot upd := by
  unfold Broker.handleNodeValueUpdated Broker.applyCancel
  dsimp only
  cases hl : lookupValue snapshot (derivedId upd) with
  | none => rfl
  | some value =>
    dsimp only
    cases hv : value.value with
    | error e => rfl
    | ok gv =>
      dsimp only
      cases hn : b.nodesByID value.nodeID with
      | none => rfl
      | some p =>
        dsimp only
        have hwf := (h _ _ hn).2
        rw [hwf]

theorem filter_self_idem (p : Sink → Bool) (l : List Sink) :
    (l.filter p).filter p = l.filter p := by
  induction l with
  | nil => rfl
  | cons a t ih =>
    by_cases hp : p a = true
    · simp [List.filter_cons, hp, ih]
    · simp [List.filter_cons, hp, ih]

/-! ## C8: watch cancellation -/

/-- C8: for a sink not yet registered in any watcher cell, after the
cancel function returned by `WatchValue` completes (1) no later
notification attempts any delivery to that sink, (2) the sink is gone from
the token's cell while (3) other cells and (4) other sinks of the same
cell are untouched — the cancel removes exactly that sink's registration —
(5) cancelling a second time changes nothing (idempotent, and the cancel
is a total function with no error path), and (6) after the directory has
been replaced by a later successful bootstrap, running a cancel is a
no-op for every notification outcome. -/
theorem watch_cancel_spec (b b1 : Broker) (nodeName property : String) (v : Sink)
    (tok : Nat × Sink)
    (hfresh : ∀ c, v ∉ b.cellHeap c)
    (hw : b.watchValue nodeName property v = .ok (b1, tok)) :
    (∀ snapshot upd, v ∉ ((b1.applyCancel tok).handleNodeValueUpdated snapshot upd).2) ∧
    (tok.2 ∉ (b1.applyCancel tok).cellHeap tok.1) ∧
    (∀ c, c ≠ tok.1 → (b1.applyCancel tok).cellHeap c = b1.cellHeap c) ∧
    (∀ w, w ≠ tok.2 → (w ∈ (b1.applyCancel tok).cellHeap tok.1 ↔ w ∈ b1.cellHeap tok.1)) ∧
    ((b1.applyCancel tok).applyCancel tok = b1.applyCancel tok) ∧
    (∀ resp b2 tok2 snapshot upd,
      (b1.applyCancel tok).handleGetNodesResp resp = (b2, none) →
      (b2.applyCancel tok2).handleNodeValueUpdated snapshot upd =
        b2.handleNodeValueUpdated snapshot upd) := by
  obtain ⟨htok, hother, hmem⟩ := watchValue_spec b b1 nodeName property v tok hw
  have hnone : ∀ c, v ∉ (b1.applyCancel tok).cellHeap c := by
    intro c hc
    rw [mem_applyCancel] at hc
    obtain ⟨hc1, hc2⟩ := hc
    by_cases hcc : c = tok.1
    · exact (hc2 hcc) htok.symm
    · rw [hother c hcc] at hc1
      exact hfresh c hc1
  refine ⟨?_, ?_, ?_, ?_, ?_, ?_⟩
  · intro snapshot upd hvmem
    rcases handleNodeValueUpdated_targets (b1.applyCancel tok) snapshot upd with
      ht | ⟨cell, ht⟩
    · rw [ht] at hvmem
      exact absurd hvmem (List.not_mem_nil v)
    · rw [ht] at hvmem
      exact hnone cell hvmem
  · intro hx
    rw [mem_applyCancel] at hx
    exact hx.2 rfl rfl
  · intro c hc
    rw [applyCancel_cellHeap, if_neg hc]
  · intro w hw2
    rw [mem_applyCancel]
    exact ⟨fun hx => hx.1, fun hx => ⟨hx, fun _ => hw2⟩⟩
  · unfold Broker.applyCancel
    dsimp only
    congr 1
    funext c
    by_cases hc : c = tok.1
    · simp only [hc, if_pos rfl]
      exact filter_self_idem _ _
    · simp only [if_neg hc]
  · intro resp b2 tok2 snapshot upd hresp
    exact handleNodeValueUpdated_cancel_invariant b2 tok2
      (handleGetNodesResp_watcherFree _ _ _ hresp) snapshot upd

/-- The result of watching `currentValue` of `kitchen-light` with sink 5
on the example directory. -/
def exWatch : Broker × (Nat × Sink) :=
  ((exBroker.watchValue "kitchen-light" "currentValue" 5).toOption).getD
    (emptyBroker, (0, 0))

/-- Witness for `watch_cancel_spec` on the example directory: after
cancelling the watch, the concrete notification for `38-0-currentValue`
delivers nothing to sink 5, the sink is gone from its cell, and a second
cancel changes nothing. -/
theorem watch_cancel_spec_witness :
    (5 ∉ ((exWatch.1.applyCancel exWatch.2).handleNodeValueUpdated
        [("38-0-currentValue", exValue)] exUpd).2) ∧
    (exWatch.2.2 ∉ (exWatch.1.applyCancel exWatch.2).cellHeap exWatch.2.1) ∧
    ((exWatch.1.applyCancel exWatch.2).applyCancel exWatch.2 =
      exWatch.1.applyCancel exWatch.2) := by
  have h := watch_cancel_spec exBroker exWatch.1 "kitchen-light" "currentValue" 5
    exWatch.2 (fun c => List.not_mem_nil 5) rfl
  exact ⟨h.1 _ _, h.2.1, h.2.2.2.2.1⟩

end Z2M
